import Mathlib

/-!
# UserData plugin manager

A shallow embedding of `pkg/userdata/manager/plugin.go` (the plugin handle:
binary lookup, reuse check, launch, connection polling, the `UserData` call)
and of the flag defaults of `cmd/userdata/ubuntu/main.go`.

Everything the Go code obtains from the operating system or from `net/rpc`
is read from a `World`, a record of answers; everything it does to the
outside (dialling, calling, removing the socket file, starting the child,
waiting) is appended to the `trace` of a `Sys`. A nil pointer is `none`, a Go
result pair `(v, err)` is a Lean pair whose second component is
`Option GoError`, and a nil-pointer dereference is the result `none` of the
whole call.
-/

namespace Manager

/-! ## Errors -/

/-- Error numbers that `os.Stat` can report (the ones a lookup below a search
directory meets). -/
inductive Errno where
  | ENOENT
  | EACCES
  | ENOTDIR
  | ELOOP
  | ENAMETOOLONG
deriving DecidableEq, Repr

/-- Go `error` values that flow through the manager. `errorString s` is the
value of `errors.New(s)` (and of `fmt.Errorf` without `%w`), whose message is
`s`; `ErrPluginNotFound` (declared in another file of the package) and
`ErrWaitTimeout` (of the wait library) are the two sentinel values that
plugin.go refers to, of which only the identity is used; `PathError` is what
`os.Stat` returns; `other` is any error of the transport or of the operating
system. -/
inductive GoError where
  | errorString (s : String)
  | ErrPluginNotFound
  | ErrWaitTimeout
  | PathError (op path : String) (errno : Errno)
  | other (msg : String)
deriving DecidableEq, Repr

/-- Go `errors.New`. -/
def errors_New (s : String) : GoError := GoError.errorString s

/-- Go `os.IsNotExist` on Unix: true exactly for an error whose underlying
error number is `ENOENT`; false for nil and for every other error. -/
def os_IsNotExist : Option GoError → Bool
  | some (GoError.PathError _ _ Errno.ENOENT) => true
  | _ => false

/-! ## Constants of plugin.go -/

/-- Go `time.Duration` counts nanoseconds. -/
abbrev Duration := Nat

def Millisecond : Duration := 1000000

def Second : Duration := 1000 * Millisecond

/-- Interval for plugin connection polling. -/
def pollInterval : Duration := 20 * Millisecond

/-- Timeout for plugin connection polling. -/
def pollTimeout : Duration := 5 * Second

/-- The value of pluginPrefix, which has to be the prefix of all plugin
filenames. -/
def pluginPrefix : String := "machine-controller-userdata-"

/-- Go `os.PathSeparator` on Unix. -/
def PathSeparator : Char := '/'

/-- Go `os.PathListSeparator` on Unix. -/
def PathListSeparator : Char := ':'

/-! ## Data model -/

/-- An open `*rpc.Client`; the number identifies the connection. -/
structure Client where
  conn : Nat
deriving DecidableEq, Repr

/-- Go `providerconfig.OperatingSystem`, a string type. -/
abbrev OperatingSystem := String

/-- The handle `Plugin`; `client = none` is the nil pointer. -/
structure Plugin where
  os : OperatingSystem
  debug : Bool
  client : Option Client
deriving DecidableEq, Repr

/-- Payload of the caller, passed through unmodified. -/
abbrev MachineSpec := String

/-- Payload of the caller, passed through unmodified. -/
abbrev KubeConfig := String

/-- Payload of the caller, passed through unmodified. -/
abbrev ConfigProvider := String

/-- Go `net.IP`. -/
abbrev IP := List Nat

structure PingRequest where
deriving DecidableEq, Repr

structure PingResponse where
  Executable : String
deriving DecidableEq, Repr

structure UserDataRequest where
  MachineSpec : MachineSpec
  KubeConfig : Option KubeConfig
  CloudConfig : ConfigProvider
  DNSIPs : List IP
  ExternalCloudProvider : Bool
deriving DecidableEq, Repr

structure UserDataResponse where
  UserData : String
  Err : String
deriving DecidableEq, Repr

/-- The two standard streams a child can inherit. -/
inductive File where
  | Stdout
  | Stderr
deriving DecidableEq, Repr

structure SysProcAttr where
  Setpgid : Bool
deriving DecidableEq, Repr

/-- Go `exec.Cmd`, the fields plugin.go touches. `Args` holds the program name
followed by the arguments, as in Go. -/
structure Cmd where
  Path : String
  Args : List String
  Stdout : Option File
  Stderr : Option File
  SysProcAttr : Option SysProcAttr
deriving DecidableEq, Repr

/-- Go `exec.Command(name, arg...)`: nothing is inherited and `SysProcAttr` is
nil until the caller sets them. -/
def exec_Command (name : String) (arg : List String) : Cmd :=
  { Path := name, Args := name :: arg, Stdout := none, Stderr := none, SysProcAttr := none }

/-- What the manager does to the outside world, in the order it does it. -/
inductive Event where
  | dial (network address path : String)
  | call (client : Client) (method : String)
  | remove (path : String)
  | start (cmd : Cmd)
  | sleep (d : Duration)
deriving DecidableEq, Repr

/-- The answers of the operating system and of the transport. `Dial n` is the
outcome of the dial made when `n` dials have been made before it. `RPCPath`
stands for the constant `plugin.RPCPath`. -/
structure World where
  Executable : Except GoError String
  Abs : String → Except GoError String
  Getwd : Except GoError String
  Getenv : String → String
  Stat : String → Option GoError
  RPCPath : String
  Dial : Nat → String → Except GoError Client
  Ping : Client → PingRequest → Except GoError PingResponse
  UserData : Client → UserDataRequest → Except GoError UserDataResponse
  Start : Cmd → Option GoError
  Close : Client → Option GoError

/-- The effects so far: how many dials were made, and the log. -/
structure Sys where
  dials : Nat
  trace : List Event
deriving DecidableEq, Repr

/-- A process that has not touched the outside yet. -/
def Sys.init : Sys := { dials := 0, trace := [] }

def Sys.log (s : Sys) (e : Event) : Sys := { s with trace := s.trace ++ [e] }

/-! ## Library functions used by plugin.go -/

/-- Go `rpc.DialHTTPPath`: either a client (with a nil error) or an error (with
a nil client). -/
def rpc_DialHTTPPath (w : World) (network address path : String) (s : Sys) :
    Except GoError Client × Sys :=
  (w.Dial s.dials address,
   { dials := s.dials + 1, trace := s.trace ++ [Event.dial network address path] })

/-- Go `filepath.Split` on Unix: the path is cut right after its last
separator; without a separator the directory is empty. -/
def filepath_Split (path : String) : String × String :=
  let r := path.data.reverse
  (String.mk (r.dropWhile (fun c => c != PathSeparator)).reverse,
   String.mk (r.takeWhile (fun c => c != PathSeparator)).reverse)

/-- Cutting a list of characters at every occurrence of `sep`. -/
def splitChars (sep : Char) : List Char → List (List Char)
  | [] => [[]]
  | c :: cs =>
    if c = sep then [] :: splitChars sep cs
    else
      match splitChars sep cs with
      | [] => [[c]]
      | h :: t => (c :: h) :: t

/-- Go `strings.Split` for a separator of one character: the pieces between
the separators, empty pieces included; the empty string gives one empty
piece. -/
def strings_Split (s : String) (sep : Char) : List String :=
  (splitChars sep s.data).map String.mk

/-- The state the polling of `startPlugin` works on. -/
abbrev PollState := Plugin × Sys

/-- The ticks of `wait.PollImmediate` after the first, immediate attempt: one
attempt per tick after waiting the interval, and `ErrWaitTimeout` when the
ticks are used up. -/
def pollLoop (interval : Duration)
    (condition : PollState → (Bool × Option GoError) × PollState) :
    Nat → PollState → Option GoError × PollState
  | 0, st => (some GoError.ErrWaitTimeout, st)
  | n + 1, st =>
    match condition (st.1, st.2.log (Event.sleep interval)) with
    | ((_, some err), st1) => (some err, st1)
    | ((true, none), st1) => (none, st1)
    | ((false, none), st1) => pollLoop interval condition n st1

/-- The library function `wait.PollImmediate(interval, timeout, condition)` of
k8s.io/apimachinery: the condition is tried at once and then once per
interval while the timeout lasts; an error of the condition ends the polling
with that error, a true result ends it with nil, and running out of time ends
it with `ErrWaitTimeout`. -/
def wait_PollImmediate (interval timeout : Duration)
    (condition : PollState → (Bool × Option GoError) × PollState) (st : PollState) :
    Option GoError × PollState :=
  match condition st with
  | ((_, some err), st1) => (some err, st1)
  | ((true, none), st1) => (none, st1)
  | ((false, none), st1) => pollLoop interval condition (timeout / interval) st1

/-! ## plugin.go -/

/-- The loop of `findPlugin` over the directories to search. -/
def findPlugin.look (w : World) (filename : String) : List String → String × Option GoError
  | [] => ("", some GoError.ErrPluginNotFound)
  | dir :: dirs =>
    let fqpn := dir ++ String.singleton PathSeparator ++ filename
    let err := w.Stat fqpn
    if os_IsNotExist err then findPlugin.look w filename dirs
    else (fqpn, none)

/-- The directories `findPlugin` searches, in order, when the three system
calls succeed. -/
def findPlugin.dirs (ownDir workingDir path : String) : List String :=
  let dirs := [ownDir, workingDir]
  let pathDirs := strings_Split path PathListSeparator
  dirs ++ pathDirs

/-- The function findPlugin searches for the full qualified plugin name in
machine controller directory, in working directory, and in path. -/
def findPlugin (w : World) (filename : String) : String × Option GoError :=
  match w.Executable with
  | Except.error err => ("", some err)
  | Except.ok executable =>
    let ownDir := (filepath_Split executable).1
    match w.Abs ownDir with
    | Except.error err => ("", some err)
    | Except.ok ownDir =>
      match w.Getwd with
      | Except.error err => ("", some err)
      | Except.ok workingDir =>
        let path := w.Getenv "PATH"
        findPlugin.look w filename (findPlugin.dirs ownDir workingDir path)

/-- The method isRunning checks if it can connect a running plugin and if the
filename is matching. -/
def Plugin.isRunning (w : World) (p : Plugin) (address : String) (s : Sys) :
    (String × Option GoError) × Plugin × Sys :=
  match rpc_DialHTTPPath w "unix" address w.RPCPath s with
  | (Except.error _, s1) => (("", none), p, s1)
  | (Except.ok client, s1) =>
    let p1 : Plugin := { p with client := some client }
    let req : PingRequest := {}
    let s2 := s1.log (Event.call client "Plugin.Ping")
    match w.Ping client req with
    | Except.error err => (("", some err), p1, s2)
    | Except.ok resp => ((resp.Executable, none), p1, s2)

/-- The condition function that `startPlugin` hands to `wait.PollImmediate`.
In the branch `err != nil` the variable `client` that is stored into the
handle is the nil client that `rpc.DialHTTPPath` returns with an error. -/
def Plugin.startPlugin.condition (w : World) (address : String) (st : PollState) :
    (Bool × Option GoError) × PollState :=
  match rpc_DialHTTPPath w "unix" address w.RPCPath st.2 with
  | (Except.error _, s1) =>
    let client : Option Client := none
    ((true, none), ({ st.1 with client := client }, s1))
  | (Except.ok _, s1) =>
    -- Not yet done.
    ((false, none), (st.1, s1))

/-- Go `fmt.Errorf("cannot reuse plugin, want '%s', got '%s'", fqpn, executable)`. -/
def cannotReuse (fqpn executable : String) : GoError :=
  GoError.errorString
    ("cannot reuse plugin, want \x27" ++ fqpn ++ "\x27, got \x27" ++ executable ++ "\x27")

/-- The method startPlugin tries to find the according file and start it as
child process of the machine controller. -/
def Plugin.startPlugin (w : World) (p : Plugin) (s : Sys) : Option GoError × Plugin × Sys :=
  let name := pluginPrefix ++ p.os
  match findPlugin w name with
  | (_, some err) => (some err, p, s)
  | (fqpn, none) =>
    let address := "/tmp/" ++ name ++ ".sock"
    match p.isRunning w address s with
    | ((_, some err), p1, s1) => (some err, p1, s1)
    | ((executable, none), p1, s1) =>
      if executable = fqpn then (none, p1, s1)
      else if executable ≠ "" then (some (cannotReuse fqpn executable), p1, s1)
      else
        let s2 := s1.log (Event.remove address)
        let argv := ["-address", address]
        let argv := if p1.debug then argv ++ ["-debug"] else argv
        let cmd := exec_Command fqpn argv
        let cmd := { cmd with Stdout := some File.Stdout }
        let cmd := { cmd with Stderr := some File.Stderr }
        let cmd : Cmd :=
          match cmd.SysProcAttr with
          | none => { cmd with SysProcAttr := some { Setpgid := true } }
          | some attr => { cmd with SysProcAttr := some { attr with Setpgid := true } }
        let s3 := s2.log (Event.start cmd)
        match w.Start cmd with
        | some err => (some err, p1, s3)
        | none =>
          match wait_PollImmediate pollInterval pollTimeout
              (Plugin.startPlugin.condition w address) (p1, s3) with
          | (err, (p2, s4)) => (err, p2, s4)

/-- The function newPlugin creates a new plugin manager. It starts the named
binary and connects to it via net/rpc. -/
def newPlugin (w : World) (os : OperatingSystem) (debug : Bool) (s : Sys) :
    (Option Plugin × Option GoError) × Sys :=
  let p : Plugin := { os := os, debug := debug, client := none }
  match p.startPlugin w s with
  | (some err, _, s1) => ((none, some err), s1)
  | (none, p1, s1) => ((some p1, none), s1)

/-- The method Stop terminates the plugin by closing the client. The result
`none` is the nil-pointer dereference of `p.client.Close()`. -/
def Plugin.Stop (w : World) (p : Plugin) : Option (Option GoError) :=
  match p.client with
  | none => none
  | some c => some (w.Close c)

/-- The method OperatingSystem returns the operating system this plugin is
responsible for. -/
def Plugin.OperatingSystem (p : Plugin) : OperatingSystem := p.os

/-- The method UserData retrieves the user data of the given resource via
plugin handling the communication. The result `none` is the nil-pointer
dereference of `p.client.Call`. -/
def Plugin.UserData (w : World) (p : Plugin) (spec : MachineSpec)
    (kubeconfig : Option KubeConfig) (ccProvider : ConfigProvider)
    (clusterDNSIPs : List IP) (externalCloudProvider : Bool) :
    Option (String × Option GoError) :=
  let req : UserDataRequest :=
    { MachineSpec := spec
      KubeConfig := kubeconfig
      CloudConfig := ccProvider
      DNSIPs := clusterDNSIPs
      ExternalCloudProvider := externalCloudProvider }
  match p.client with
  | none => none
  | some c =>
    match w.UserData c req with
    | Except.error err => some ("", some err)
    | Except.ok resp =>
      if resp.Err ≠ "" then some ("", some (errors_New resp.Err))
      else some (resp.UserData, none)

/-! ## Vocabulary of the statements -/

/-- The events that `s1` logged after the point `s0`. -/
def Sys.since (s1 s0 : Sys) : List Event := s1.trace.drop s0.trace.length

/-- The socket address of `startPlugin` (its lines `name := ...` and
`address := ...`) as a function of the operating system. -/
def socketAddress (os : OperatingSystem) : String :=
  "/tmp/" ++ (pluginPrefix ++ os) ++ ".sock"

/-- The command that `startPlugin` builds for the plugin binary `fqpn`. -/
def launchCmd (fqpn address : String) (debug : Bool) : Cmd :=
  { Path := fqpn
    Args := fqpn :: "-address" :: address :: (if debug then ["-debug"] else [])
    Stdout := some File.Stdout
    Stderr := some File.Stderr
    SysProcAttr := some { Setpgid := true } }

/-- The launch part of `startPlugin`: from removing the socket file on. -/
def launchTail (w : World) (fqpn address : String) (p : Plugin) (s : Sys) :
    Option GoError × Plugin × Sys :=
  let s3 : Sys :=
    { dials := s.dials
      trace := s.trace ++ [Event.remove address, Event.start (launchCmd fqpn address p.debug)] }
  match w.Start (launchCmd fqpn address p.debug) with
  | some err => (some err, p, s3)
  | none =>
    wait_PollImmediate pollInterval pollTimeout (Plugin.startPlugin.condition w address) (p, s3)

/-- The events of the launch and of the polling that follows it. -/
def Event.launches : Event → Bool
  | Event.remove _ => true
  | Event.start _ => true
  | Event.sleep _ => true
  | _ => false

/-- The events a polling run may log. -/
def pollEvent (w : World) (address : String) (interval : Duration) (e : Event) : Prop :=
  e = Event.sleep interval ∨ e = Event.dial "unix" address w.RPCPath

/-- What an event logged by `startPlugin` on the handle `p` looks like. -/
def startEvent (w : World) (p : Plugin) (e : Event) : Prop :=
  e = Event.dial "unix" (socketAddress p.os) w.RPCPath ∨
  (∃ c, e = Event.call c "Plugin.Ping") ∨
  e = Event.remove (socketAddress p.os) ∨
  (∃ fqpn, e = Event.start
    { Path := fqpn
      Args := fqpn :: "-address" :: socketAddress p.os :: (if p.debug then ["-debug"] else [])
      Stdout := some File.Stdout
      Stderr := some File.Stderr
      SysProcAttr := some { Setpgid := true } }) ∨
  e = Event.sleep pollInterval

/-! ## Scenarios

Concrete worlds on which the definitions are evaluated. -/

/-- A machine on which the Ubuntu plugin lies next to the manager binary, no
socket is reachable and a started child never listens. -/
def quietWorld : World :=
  { Executable := Except.ok "/usr/local/bin/machine-controller"
    Abs := fun d => Except.ok (if d = "/usr/local/bin/" then "/usr/local/bin" else d)
    Getwd := Except.ok "/root"
    Getenv := fun k => if k = "PATH" then "/usr/bin:/bin" else ""
    Stat := fun f =>
      if f = "/usr/local/bin/machine-controller-userdata-ubuntu" then none
      else some (GoError.PathError "stat" f Errno.ENOENT)
    RPCPath := "/rpc"
    Dial := fun _ _ => Except.error (GoError.other "dial unix: connect: connection refused")
    Ping := fun _ _ => Except.error (GoError.other "connection is shut down")
    UserData := fun _ _ => Except.error (GoError.other "connection is shut down")
    Start := fun _ => none
    Close := fun _ => none }

/-- The handle that `newPlugin` starts from for Ubuntu without debugging. -/
def ubuntuPlugin : Plugin := { os := "ubuntu", debug := false, client := none }

/-- The world `quietWorld` with a process on the socket that answers every
Ping with the path `executable`; later dials fail. -/
def peerWorld (executable : String) : World :=
  { quietWorld with
    Dial := fun n _ =>
      if n = 0 then Except.ok { conn := 1 }
      else Except.error (GoError.other "dial unix: connect: connection refused")
    Ping := fun _ _ => Except.ok { Executable := executable } }

/-- The world `quietWorld` with a listener that accepts every dial. -/
def listeningWorld : World :=
  { quietWorld with Dial := fun n _ => Except.ok { conn := n } }

/-- The world `quietWorld` whose plugin answers the call `Plugin.UserData`
with `reply`. -/
def replyWorld (reply : Except GoError UserDataResponse) : World :=
  { quietWorld with UserData := fun _ _ => reply }

/-- A machine without any plugin binary whose PATH names a regular file,
`/bin/sh`, as its first entry: below it `os.Stat` fails with `ENOTDIR`,
everywhere else with `ENOENT`. -/
def fileOnPathWorld : World :=
  { quietWorld with
    Getenv := fun k => if k = "PATH" then "/bin/sh:/usr/bin" else ""
    Stat := fun f =>
      if f = "/bin/sh/machine-controller-userdata-ubuntu" then
        some (GoError.PathError "stat" f Errno.ENOTDIR)
      else some (GoError.PathError "stat" f Errno.ENOENT) }

/-- A handle that holds the open connection 1. -/
def connectedPlugin : Plugin := { os := "ubuntu", debug := false, client := some { conn := 1 } }

end Manager

/-! ## cmd/userdata/ubuntu/main.go -/

namespace Ubuntu

/-- The default that `main` registers for the flag `-address`. -/
def addressDefault : String := "/tmp/machine-controller-userdata-coreos.sock"

/-- The usage text that `main` registers for the flag `-address`. -/
def addressUsage : String := "Unix domain socket for the Ubuntu UserData plugin"

/-- The default that `main` registers for the flag `-debug`. -/
def debugDefault : Bool := false

/-- The value of the variable `address` after `flag.Parse()`: the value given
on the command line, the registered default without one. -/
def address (given : Option String) : String :=
  match given with
  | some a => a
  | none => addressDefault

end Ubuntu

/-! ## Supporting lemmas -/

namespace Manager

/-- The address spelled out: the prefix of the plugin names is part of it. -/
theorem socketAddress_eq (os : OperatingSystem) :
    socketAddress os = "/tmp/machine-controller-userdata-" ++ os ++ ".sock" := by
  unfold socketAddress pluginPrefix
  rw [← String.append_assoc]
  rfl

/-- Different operating systems have different socket addresses. -/
theorem socketAddress_injective {a b : OperatingSystem}
    (h : socketAddress a = socketAddress b) : a = b := by
  have hd := congrArg String.data h
  simp only [socketAddress, String.data_append, List.append_cancel_right_eq,
    List.append_cancel_left_eq] at hd
  exact String.ext hd

/-- The events logged since `s0` are what was appended to its trace. -/
theorem since_append (s0 s1 : Sys) (new : List Event) (h : s1.trace = s0.trace ++ new) :
    s1.since s0 = new := by
  simp [Sys.since, h]

/-- One call of the polling condition, by the outcome of its dial. -/
theorem condition_eval (w : World) (address : String) (p : Plugin) (s : Sys) :
    Plugin.startPlugin.condition w address (p, s) =
      match w.Dial s.dials address with
      | Except.error _ =>
        ((true, none), ({ p with client := none },
          { dials := s.dials + 1, trace := s.trace ++ [Event.dial "unix" address w.RPCPath] }))
      | Except.ok _ =>
        ((false, none), (p,
          { dials := s.dials + 1, trace := s.trace ++ [Event.dial "unix" address w.RPCPath] })) := by
  simp only [Plugin.startPlugin.condition, rpc_DialHTTPPath]
  cases w.Dial s.dials address <;> rfl

/-- The ticks of the polling only wait and dial the given address. -/
theorem pollLoop_trace (w : World) (address : String) (interval : Duration) (n : Nat) :
    ∀ (p : Plugin) (s : Sys), ∃ new,
      (pollLoop interval (Plugin.startPlugin.condition w address) n (p, s)).2.2.trace
        = s.trace ++ new ∧ ∀ e ∈ new, pollEvent w address interval e := by
  induction n with
  | zero => intro p s; exact ⟨[], by simp [pollLoop]⟩
  | succ n ih =>
    intro p s
    simp only [pollLoop, condition_eval, Sys.log]
    cases hd : w.Dial s.dials address with
    | error e =>
      exact ⟨[Event.sleep interval, Event.dial "unix" address w.RPCPath], by simp [pollEvent]⟩
    | ok c =>
      simp only
      obtain ⟨new, hnew, hall⟩ := ih p
        { dials := s.dials + 1,
          trace := s.trace ++ [Event.sleep interval] ++ [Event.dial "unix" address w.RPCPath] }
      refine ⟨[Event.sleep interval, Event.dial "unix" address w.RPCPath] ++ new, ?_, ?_⟩
      · rw [hnew]; simp
      · intro e he
        simp only [List.mem_append, List.mem_cons, List.mem_singleton, List.not_mem_nil,
          or_false] at he
        rcases he with (h | h) | h
        · exact Or.inl h
        · exact Or.inr h
        · exact hall e h

/-- A polling run only waits and dials the given address. -/
theorem poll_trace (w : World) (address : String) (interval timeout : Duration)
    (p : Plugin) (s : Sys) : ∃ new,
      (wait_PollImmediate interval timeout (Plugin.startPlugin.condition w address)
        (p, s)).2.2.trace = s.trace ++ new ∧ ∀ e ∈ new, pollEvent w address interval e := by
  simp only [wait_PollImmediate, condition_eval]
  cases hd : w.Dial s.dials address with
  | error e => exact ⟨[Event.dial "unix" address w.RPCPath], by simp [pollEvent]⟩
  | ok c =>
    simp only
    obtain ⟨new, hnew, hall⟩ := pollLoop_trace w address interval (timeout / interval) p
      { dials := s.dials + 1, trace := s.trace ++ [Event.dial "unix" address w.RPCPath] }
    refine ⟨[Event.dial "unix" address w.RPCPath] ++ new, ?_, ?_⟩
    · rw [hnew]; simp
    · intro e he
      simp only [List.mem_append, List.mem_singleton] at he
      rcases he with h | h
      · exact Or.inr h
      · exact hall e h

/-- One call of `isRunning`, by the outcomes of its dial and of its Ping. -/
theorem isRunning_eval (w : World) (p : Plugin) (address : String) (s : Sys) :
    p.isRunning w address s =
      match w.Dial s.dials address with
      | Except.error _ =>
        (("", none), p,
          { dials := s.dials + 1, trace := s.trace ++ [Event.dial "unix" address w.RPCPath] })
      | Except.ok c =>
        match w.Ping c {} with
        | Except.error err =>
          (("", some err), { p with client := some c },
            { dials := s.dials + 1,
              trace := s.trace ++ [Event.dial "unix" address w.RPCPath,
                Event.call c "Plugin.Ping"] })
        | Except.ok resp =>
          ((resp.Executable, none), { p with client := some c },
            { dials := s.dials + 1,
              trace := s.trace ++ [Event.dial "unix" address w.RPCPath,
                Event.call c "Plugin.Ping"] }) := by
  simp only [Plugin.isRunning, rpc_DialHTTPPath, Sys.log]
  cases w.Dial s.dials address with
  | error e => rfl
  | ok c =>
    simp only
    cases w.Ping c {} <;> simp

/-- The branches of `startPlugin`, with the launch part folded into `launchTail`. -/
theorem startPlugin_eval (w : World) (p : Plugin) (s : Sys) :
    p.startPlugin w s =
      match findPlugin w (pluginPrefix ++ p.os) with
      | (_, some err) => (some err, p, s)
      | (fqpn, none) =>
        match p.isRunning w (socketAddress p.os) s with
        | ((_, some err), p1, s1) => (some err, p1, s1)
        | ((executable, none), p1, s1) =>
          if executable = fqpn then (none, p1, s1)
          else if executable ≠ "" then (some (cannotReuse fqpn executable), p1, s1)
          else launchTail w fqpn (socketAddress p.os) p1 s1 := by
  unfold Plugin.startPlugin launchTail launchCmd socketAddress
  dsimp only
  rcases findPlugin w (pluginPrefix ++ p.os) with ⟨fqpn, _ | err⟩
  swap
  · rfl
  simp only
  rcases p.isRunning w ("/tmp/" ++ (pluginPrefix ++ p.os) ++ ".sock") s with
    ⟨⟨executable, _ | err⟩, p1, s1⟩
  swap
  · rfl
  simp only
  split
  · rfl
  split
  · rfl
  cases p1.debug <;> simp [Sys.log, exec_Command]

/-- Every event that a run of `startPlugin` logs has the expected shape. -/
theorem startPlugin_trace (w : World) (p : Plugin) (s : Sys) :
    ∃ new, (p.startPlugin w s).2.2.trace = s.trace ++ new ∧ ∀ e ∈ new, startEvent w p e := by
  rw [startPlugin_eval, isRunning_eval]
  rcases findPlugin w (pluginPrefix ++ p.os) with ⟨fqpn, _ | err⟩
  swap
  · exact ⟨[], by simp⟩
  simp only
  have hdial : startEvent w p (Event.dial "unix" (socketAddress p.os) w.RPCPath) := Or.inl rfl
  have hcall : ∀ c, startEvent w p (Event.call c "Plugin.Ping") :=
    fun c => Or.inr (Or.inl ⟨c, rfl⟩)
  have htail : ∀ (p1 : Plugin) (s1 : Sys) (pre : List Event), p1.os = p.os → p1.debug = p.debug →
      s1.trace = s.trace ++ pre → (∀ e ∈ pre, startEvent w p e) →
      ∃ new, (launchTail w fqpn (socketAddress p.os) p1 s1).2.2.trace = s.trace ++ new ∧
        ∀ e ∈ new, startEvent w p e := by
    intro p1 s1 pre hos hdb hpre hall
    have hrem : startEvent w p (Event.remove (socketAddress p.os)) := Or.inr (Or.inr (Or.inl rfl))
    have hst : startEvent w p (Event.start (launchCmd fqpn (socketAddress p.os) p1.debug)) := by
      rw [hdb]; exact Or.inr (Or.inr (Or.inr (Or.inl ⟨fqpn, rfl⟩)))
    have hpre2 : ∀ e ∈ pre ++ [Event.remove (socketAddress p.os),
        Event.start (launchCmd fqpn (socketAddress p.os) p1.debug)], startEvent w p e := by
      intro e he
      simp only [List.mem_append, List.mem_cons, List.mem_singleton, List.not_mem_nil,
        or_false] at he
      rcases he with h | h | h
      · exact hall e h
      · rw [h]; exact hrem
      · rw [h]; exact hst
    unfold launchTail
    simp only
    cases w.Start (launchCmd fqpn (socketAddress p.os) p1.debug) with
    | some err =>
      exact ⟨_, by simp only [hpre, List.append_assoc], hpre2⟩
    | none =>
      simp only
      obtain ⟨new, hnew, hnall⟩ := poll_trace w (socketAddress p.os) pollInterval pollTimeout p1
        { dials := s1.dials
          trace := s1.trace ++ [Event.remove (socketAddress p.os),
            Event.start (launchCmd fqpn (socketAddress p.os) p1.debug)] }
      refine ⟨(pre ++ [Event.remove (socketAddress p.os),
        Event.start (launchCmd fqpn (socketAddress p.os) p1.debug)]) ++ new, ?_, ?_⟩
      · rw [hnew]; simp only [hpre, List.append_assoc]
      · intro e he
        rcases List.mem_append.1 he with h | h
        · exact hpre2 e h
        · rcases hnall e h with h | h
          · rw [h]; exact Or.inr (Or.inr (Or.inr (Or.inr rfl)))
          · rw [h]; exact hdial
  cases w.Dial s.dials (socketAddress p.os) with
  | error e =>
    simp only
    split
    · exact ⟨_, rfl, by simpa using hdial⟩
    · simp only [ne_eq, not_true_eq_false, if_false]
      exact htail p _ [Event.dial "unix" (socketAddress p.os) w.RPCPath] rfl rfl rfl
        (by simpa using hdial)
  | ok c =>
    simp only
    have hpre : ∀ e ∈ [Event.dial "unix" (socketAddress p.os) w.RPCPath,
        Event.call c "Plugin.Ping"], startEvent w p e := by
      intro e he
      simp only [List.mem_cons, List.mem_singleton, List.not_mem_nil, or_false] at he
      rcases he with h | h
      · rw [h]; exact hdial
      · rw [h]; exact hcall c
    cases w.Ping c {} with
    | error err => exact ⟨_, rfl, hpre⟩
    | ok resp =>
      simp only
      split
      · exact ⟨_, rfl, hpre⟩
      · split
        · exact ⟨_, rfl, hpre⟩
        · exact htail _ _ _ rfl rfl rfl hpre

/-- Every event logged since the start of a run of `startPlugin` has the expected
shape. -/
theorem startPlugin_since (w : World) (p : Plugin) (s : Sys) (e : Event)
    (he : e ∈ (p.startPlugin w s).2.2.since s) : startEvent w p e := by
  obtain ⟨new, hnew, hall⟩ := startPlugin_trace w p s
  rw [since_append s _ new hnew] at he
  exact hall e he

/-- The loop of `findPlugin` stops at the first directory below which `os.Stat`
does not report `ENOENT`, whether or not the file is there. -/
theorem findPlugin_look_first (w : World) (filename : String) (dirs : List String) :
    findPlugin.look w filename dirs =
      match dirs.find? (fun dir => !os_IsNotExist (w.Stat (dir ++ "/" ++ filename))) with
      | some dir => (dir ++ "/" ++ filename, none)
      | none => ("", some GoError.ErrPluginNotFound) := by
  induction dirs with
  | nil => rfl
  | cons dir dirs ih =>
    have hsep : String.singleton PathSeparator = "/" := rfl
    simp only [findPlugin.look, List.find?, hsep]
    cases h : os_IsNotExist (w.Stat (dir ++ "/" ++ filename)) with
    | true => simpa using ih
    | false => simp

/-- When the ticks of the polling end with nil, the client of the handle is nil. -/
theorem pollLoop_nil_client (w : World) (address : String) (interval : Duration) (n : Nat) :
    ∀ (p : Plugin) (s : Sys),
      (pollLoop interval (Plugin.startPlugin.condition w address) n (p, s)).1 = none →
      (pollLoop interval (Plugin.startPlugin.condition w address) n (p, s)).2.1.client
        = none := by
  induction n with
  | zero => intro p s h; simp [pollLoop] at h
  | succ n ih =>
    intro p s
    simp only [pollLoop, condition_eval, Sys.log]
    cases w.Dial s.dials address with
    | error e => intro _; rfl
    | ok c => exact ih p _

/-- When the polling ends with nil, the client of the handle is nil. -/
theorem poll_nil_client (w : World) (address : String) (interval timeout : Duration)
    (p : Plugin) (s : Sys)
    (h : (wait_PollImmediate interval timeout (Plugin.startPlugin.condition w address)
      (p, s)).1 = none) :
    (wait_PollImmediate interval timeout (Plugin.startPlugin.condition w address)
      (p, s)).2.1.client = none := by
  revert h
  simp only [wait_PollImmediate, condition_eval]
  cases w.Dial s.dials address with
  | error e => intro _; rfl
  | ok c => exact pollLoop_nil_client w address interval _ p _

/-- When every dial succeeds, the ticks of the polling run out with
`ErrWaitTimeout` and leave the handle as it was. -/
theorem pollLoop_listening (w : World) (address : String) (interval : Duration)
    (hw : ∀ n, ∃ c, w.Dial n address = Except.ok c) (n : Nat) :
    ∀ (p : Plugin) (s : Sys),
      (pollLoop interval (Plugin.startPlugin.condition w address) n (p, s)).1
        = some GoError.ErrWaitTimeout ∧
      (pollLoop interval (Plugin.startPlugin.condition w address) n (p, s)).2.1 = p := by
  induction n with
  | zero => intro p s; exact ⟨rfl, rfl⟩
  | succ n ih =>
    intro p s
    obtain ⟨c, hc⟩ := hw s.dials
    simp only [pollLoop, condition_eval, Sys.log, hc]
    exact ih p _

/-- When the launch part of `startPlugin` ends with nil, the client of the handle
is nil. -/
theorem launchTail_nil_client (w : World) (fqpn address : String) (p : Plugin) (s : Sys)
    (h : (launchTail w fqpn address p s).1 = none) :
    (launchTail w fqpn address p s).2.1.client = none := by
  revert h
  unfold launchTail
  simp only
  cases w.Start (launchCmd fqpn address p.debug) with
  | some err => intro h; simp at h
  | none => exact poll_nil_client w address pollInterval pollTimeout p _

/-! ## The claims -/

/-- Claim C1: on a handle with a client, `UserData` returns the data and a nil
error when the delivered response has an empty `Err`, the empty string and
`errors.New(resp.Err)` when `Err` is non-empty, and the empty string and the
error of the call itself when the remote call fails. -/
theorem UserData_unwraps_response (w : World) (p : Plugin) (c : Client) (spec : MachineSpec)
    (kubeconfig : Option KubeConfig) (ccProvider : ConfigProvider) (clusterDNSIPs : List IP)
    (externalCloudProvider : Bool) (hc : p.client = some c) :
    (∀ resp, w.UserData c
          { MachineSpec := spec, KubeConfig := kubeconfig, CloudConfig := ccProvider,
            DNSIPs := clusterDNSIPs, ExternalCloudProvider := externalCloudProvider }
          = Except.ok resp → resp.Err = "" →
        p.UserData w spec kubeconfig ccProvider clusterDNSIPs externalCloudProvider
          = some (resp.UserData, none)) ∧
    (∀ resp, w.UserData c
          { MachineSpec := spec, KubeConfig := kubeconfig, CloudConfig := ccProvider,
            DNSIPs := clusterDNSIPs, ExternalCloudProvider := externalCloudProvider }
          = Except.ok resp → resp.Err ≠ "" →
        p.UserData w spec kubeconfig ccProvider clusterDNSIPs externalCloudProvider
          = some ("", some (GoError.errorString resp.Err))) ∧
    (∀ err, w.UserData c
          { MachineSpec := spec, KubeConfig := kubeconfig, CloudConfig := ccProvider,
            DNSIPs := clusterDNSIPs, ExternalCloudProvider := externalCloudProvider }
          = Except.error err →
        p.UserData w spec kubeconfig ccProvider clusterDNSIPs externalCloudProvider
          = some ("", some err)) := by
  refine ⟨?_, ?_, ?_⟩
  · intro resp hr he
    simp [Plugin.UserData, hc, hr, he]
  · intro resp hr he
    simp [Plugin.UserData, hc, hr, he, errors_New]
  · intro err hr
    simp [Plugin.UserData, hc, hr]

/-- Claim C1, at a plugin that answers with an application error. -/
theorem UserData_unwraps_response_witness :
    connectedPlugin.client = some { conn := 1 } ∧
    connectedPlugin.UserData
        (replyWorld (Except.ok { UserData := "", Err := "unsupported machine" }))
        "spec" none "cloud" [[10, 0, 0, 10]] false
      = some ("", some (GoError.errorString "unsupported machine")) :=
  ⟨rfl, (UserData_unwraps_response
      (replyWorld (Except.ok { UserData := "", Err := "unsupported machine" }))
      connectedPlugin { conn := 1 } "spec" none "cloud" [[10, 0, 0, 10]] false rfl).2.1
      { UserData := "", Err := "unsupported machine" } rfl (by decide)⟩

/-- Claim C2, the code at the failing input: no socket is reachable, the child
starts, and every dial of the poll fails; `startPlugin` then returns nil after
a single probe, with a nil client, and not `ErrWaitTimeout`. -/
theorem startPlugin_unreachable_child_returns_nil :
    (∀ n address, quietWorld.Dial n address
      = Except.error (GoError.other "dial unix: connect: connection refused")) ∧
    quietWorld.Start (launchCmd "/usr/local/bin/machine-controller-userdata-ubuntu"
      "/tmp/machine-controller-userdata-ubuntu.sock" false) = none ∧
    ubuntuPlugin.startPlugin quietWorld Sys.init =
      (none, { os := "ubuntu", debug := false, client := none },
        { dials := 2
          trace :=
            [Event.dial "unix" "/tmp/machine-controller-userdata-ubuntu.sock" "/rpc",
             Event.remove "/tmp/machine-controller-userdata-ubuntu.sock",
             Event.start (launchCmd "/usr/local/bin/machine-controller-userdata-ubuntu"
               "/tmp/machine-controller-userdata-ubuntu.sock" false),
             Event.dial "unix" "/tmp/machine-controller-userdata-ubuntu.sock" "/rpc"] }) :=
  ⟨fun _ _ => rfl, rfl, by decide⟩

/-- Claim C3, the code at both dial results: after a dial that succeeds the
condition reports not-yet-done and leaves the client of the handle as it was;
after a dial that fails it reports done and stores the nil client. -/
theorem condition_is_inverted :
    Plugin.startPlugin.condition listeningWorld "/tmp/machine-controller-userdata-ubuntu.sock"
        (ubuntuPlugin, Sys.init)
      = ((false, none), (ubuntuPlugin,
          { dials := 1
            trace := [Event.dial "unix" "/tmp/machine-controller-userdata-ubuntu.sock" "/rpc"] })) ∧
    Plugin.startPlugin.condition quietWorld "/tmp/machine-controller-userdata-ubuntu.sock"
        (connectedPlugin, Sys.init)
      = ((true, none), ({ os := "ubuntu", debug := false, client := none },
          { dials := 1
            trace := [Event.dial "unix" "/tmp/machine-controller-userdata-ubuntu.sock" "/rpc"] })) := by
  decide

/-- Claim C4 as stated fails for the empty string: a process on the socket
whose Ping reports the empty path, which differs from the resolved path, is
taken for no process at all; `startPlugin` raises no mismatch error, removes
the socket file and starts a child. -/
theorem startPlugin_empty_executable_launches :
    findPlugin (peerWorld "") (pluginPrefix ++ ubuntuPlugin.os)
      = ("/usr/local/bin/machine-controller-userdata-ubuntu", none) ∧
    (peerWorld "").Dial Sys.init.dials (socketAddress ubuntuPlugin.os)
      = Except.ok { conn := 1 } ∧
    (peerWorld "").Ping { conn := 1 } {} = Except.ok { Executable := "" } ∧
    "" ≠ "/usr/local/bin/machine-controller-userdata-ubuntu" ∧
    (ubuntuPlugin.startPlugin (peerWorld "") Sys.init).1
      ≠ some (cannotReuse "/usr/local/bin/machine-controller-userdata-ubuntu" "") ∧
    Event.remove "/tmp/machine-controller-userdata-ubuntu.sock"
      ∈ (ubuntuPlugin.startPlugin (peerWorld "") Sys.init).2.2.trace ∧
    Event.start (launchCmd "/usr/local/bin/machine-controller-userdata-ubuntu"
        "/tmp/machine-controller-userdata-ubuntu.sock" false)
      ∈ (ubuntuPlugin.startPlugin (peerWorld "") Sys.init).2.2.trace :=
  ⟨by decide, rfl, rfl, by decide, by decide, by decide, by decide⟩

/-- Claim C4, amended: when the socket is reachable and Ping reports a
non-empty executable path other than the resolved one, `startPlugin` fails
with the mismatch error and does nothing beyond the dial and the Ping: no
socket file is removed, no process is started, nothing is polled. -/
theorem startPlugin_mismatch (w : World) (p : Plugin) (s : Sys) (fqpn e : String) (c : Client)
    (hf : findPlugin w (pluginPrefix ++ p.os) = (fqpn, none))
    (hd : w.Dial s.dials (socketAddress p.os) = Except.ok c)
    (hp : w.Ping c {} = Except.ok { Executable := e })
    (hne : e ≠ fqpn) (hnonempty : e ≠ "") :
    (p.startPlugin w s).1 = some (cannotReuse fqpn e) ∧
    (p.startPlugin w s).2.2.since s
      = [Event.dial "unix" (socketAddress p.os) w.RPCPath, Event.call c "Plugin.Ping"] ∧
    (∀ ev ∈ (p.startPlugin w s).2.2.since s, ev.launches = false) := by
  have h : p.startPlugin w s = (some (cannotReuse fqpn e), { p with client := some c },
      { dials := s.dials + 1
        trace := s.trace ++ [Event.dial "unix" (socketAddress p.os) w.RPCPath,
          Event.call c "Plugin.Ping"] }) := by
    rw [startPlugin_eval, isRunning_eval, hf, hd]
    simp only [hp, if_neg hne, ne_eq, hnonempty, not_false_eq_true, if_true]
  have hs : (p.startPlugin w s).2.2.since s
      = [Event.dial "unix" (socketAddress p.os) w.RPCPath, Event.call c "Plugin.Ping"] :=
    since_append s _ _ (by rw [h])
  refine ⟨by rw [h], hs, ?_⟩
  intro ev hev
  rw [hs] at hev
  simp only [List.mem_cons, List.mem_singleton, List.not_mem_nil, or_false] at hev
  rcases hev with h1 | h1 <;> rw [h1] <;> rfl

/-- Claim C4, amended, at a socket held by another binary. -/
theorem startPlugin_mismatch_witness :
    findPlugin (peerWorld "/opt/other/plugin") (pluginPrefix ++ ubuntuPlugin.os)
      = ("/usr/local/bin/machine-controller-userdata-ubuntu", none) ∧
    (ubuntuPlugin.startPlugin (peerWorld "/opt/other/plugin") Sys.init).1
      = some (cannotReuse "/usr/local/bin/machine-controller-userdata-ubuntu"
          "/opt/other/plugin") :=
  ⟨by decide,
   (startPlugin_mismatch (peerWorld "/opt/other/plugin") ubuntuPlugin Sys.init
      "/usr/local/bin/machine-controller-userdata-ubuntu" "/opt/other/plugin" { conn := 1 }
      (by decide) rfl rfl (by decide) (by decide)).1⟩

/-- Claim C5: when the socket is reachable and Ping reports exactly the path
that `findPlugin` resolved, `startPlugin` returns nil, the client of the
handle is the connection of that first dial, and the run consists of the dial
and the Ping alone: no socket file is removed, no process is started, nothing
is polled. -/
theorem startPlugin_reuse (w : World) (p : Plugin) (s : Sys) (fqpn : String) (c : Client)
    (hf : findPlugin w (pluginPrefix ++ p.os) = (fqpn, none))
    (hd : w.Dial s.dials (socketAddress p.os) = Except.ok c)
    (hp : w.Ping c {} = Except.ok { Executable := fqpn }) :
    (p.startPlugin w s).1 = none ∧
    (p.startPlugin w s).2.1.client = some c ∧
    (p.startPlugin w s).2.2.since s
      = [Event.dial "unix" (socketAddress p.os) w.RPCPath, Event.call c "Plugin.Ping"] ∧
    (∀ ev ∈ (p.startPlugin w s).2.2.since s, ev.launches = false) := by
  have h : p.startPlugin w s = (none, { p with client := some c },
      { dials := s.dials + 1
        trace := s.trace ++ [Event.dial "unix" (socketAddress p.os) w.RPCPath,
          Event.call c "Plugin.Ping"] }) := by
    rw [startPlugin_eval, isRunning_eval, hf, hd]
    simp only [hp, if_true]
  have hs : (p.startPlugin w s).2.2.since s
      = [Event.dial "unix" (socketAddress p.os) w.RPCPath, Event.call c "Plugin.Ping"] :=
    since_append s _ _ (by rw [h])
  refine ⟨by rw [h], by rw [h], hs, ?_⟩
  intro ev hev
  rw [hs] at hev
  simp only [List.mem_cons, List.mem_singleton, List.not_mem_nil, or_false] at hev
  rcases hev with h1 | h1 <;> rw [h1] <;> rfl

/-- Claim C5, at a socket held by the resolved binary. -/
theorem startPlugin_reuse_witness :
    findPlugin (peerWorld "/usr/local/bin/machine-controller-userdata-ubuntu")
        (pluginPrefix ++ ubuntuPlugin.os)
      = ("/usr/local/bin/machine-controller-userdata-ubuntu", none) ∧
    (ubuntuPlugin.startPlugin (peerWorld "/usr/local/bin/machine-controller-userdata-ubuntu")
        Sys.init).2.1.client = some { conn := 1 } :=
  ⟨by decide,
   (startPlugin_reuse (peerWorld "/usr/local/bin/machine-controller-userdata-ubuntu")
      ubuntuPlugin Sys.init "/usr/local/bin/machine-controller-userdata-ubuntu" { conn := 1 }
      (by decide) rfl rfl).2.1⟩

/-- Claim C6, the code at the failing input: the plugin file exists in none of
the searched directories, and `os.Stat` below the PATH entry `/bin/sh`, a
regular file, fails with `ENOTDIR`; `findPlugin` returns that path with a nil
error instead of `ErrPluginNotFound`. -/
theorem findPlugin_returns_missing_file :
    findPlugin.dirs "/usr/local/bin" "/root" (fileOnPathWorld.Getenv "PATH")
      = ["/usr/local/bin", "/root", "/bin/sh", "/usr/bin"] ∧
    (∀ dir ∈ ["/usr/local/bin", "/root", "/bin/sh", "/usr/bin"],
      fileOnPathWorld.Stat (dir ++ "/" ++ "machine-controller-userdata-ubuntu") ≠ none) ∧
    findPlugin fileOnPathWorld "machine-controller-userdata-ubuntu"
      = ("/bin/sh/machine-controller-userdata-ubuntu", none) ∧
    fileOnPathWorld.Stat "/bin/sh/machine-controller-userdata-ubuntu"
      = some (GoError.PathError "stat" "/bin/sh/machine-controller-userdata-ubuntu"
          Errno.ENOTDIR) := by
  decide

/-- Claim C7: whenever a run of `startPlugin` reaches the launch step, the
arguments of the child after the program name are exactly `-address` and
`/tmp/machine-controller-userdata-<os>.sock`, followed by `-debug` exactly
when the debug flag of the handle is set, and `Setpgid` is set on the
command. -/
theorem startPlugin_launch_arguments (w : World) (p : Plugin) (s : Sys) (cmd : Cmd)
    (h : Event.start cmd ∈ (p.startPlugin w s).2.2.since s) :
    (p.debug = false →
      cmd.Args.tail = ["-address", "/tmp/machine-controller-userdata-" ++ p.os ++ ".sock"]) ∧
    (p.debug = true →
      cmd.Args.tail
        = ["-address", "/tmp/machine-controller-userdata-" ++ p.os ++ ".sock", "-debug"]) ∧
    cmd.Args.head? = some cmd.Path ∧
    cmd.SysProcAttr = some { Setpgid := true } := by
  have hev := startPlugin_since w p s _ h
  simp only [startEvent, Event.start.injEq, false_or, reduceCtorEq, exists_false,
    or_false] at hev
  obtain ⟨fqpn, hcmd⟩ := hev
  subst hcmd
  rw [← socketAddress_eq]
  refine ⟨fun hd => by simp [hd], fun hd => by simp [hd], rfl, rfl⟩

/-- Claim C7, at a launch without the debug flag. -/
theorem startPlugin_launch_arguments_witness :
    Event.start (launchCmd "/usr/local/bin/machine-controller-userdata-ubuntu"
        "/tmp/machine-controller-userdata-ubuntu.sock" false)
      ∈ (ubuntuPlugin.startPlugin quietWorld Sys.init).2.2.since Sys.init ∧
    (launchCmd "/usr/local/bin/machine-controller-userdata-ubuntu"
        "/tmp/machine-controller-userdata-ubuntu.sock" false).Args.tail
      = ["-address", "/tmp/machine-controller-userdata-" ++ ubuntuPlugin.os ++ ".sock"] :=
  ⟨by decide,
   (startPlugin_launch_arguments quietWorld ubuntuPlugin Sys.init _ (by decide)).1 rfl⟩

/-- Claim C8: the address is `/tmp/machine-controller-userdata-<os>.sock`;
every dial, every socket-file removal and every `-address` argument of a run
of `startPlugin` uses that address of the handle's operating system, whatever
the debug flag, the client and the earlier effects are; and two operating
systems have the same address exactly when they are equal. -/
theorem socketAddress_determined_by_os :
    (∀ os, socketAddress os = "/tmp/machine-controller-userdata-" ++ os ++ ".sock") ∧
    (∀ (w : World) (p : Plugin) (s : Sys) (e : Event),
      e ∈ (p.startPlugin w s).2.2.since s →
        (∀ network address path, e = Event.dial network address path →
          address = socketAddress p.os) ∧
        (∀ file, e = Event.remove file → file = socketAddress p.os) ∧
        (∀ cmd, e = Event.start cmd →
          (cmd.Args.tail).take 2 = ["-address", socketAddress p.os])) ∧
    (∀ a b, socketAddress a = socketAddress b ↔ a = b) := by
  refine ⟨socketAddress_eq, ?_, fun a b => ⟨socketAddress_injective, fun h => by rw [h]⟩⟩
  intro w p s e he
  have hev := startPlugin_since w p s e he
  refine ⟨?_, ?_, ?_⟩
  · intro network address path heq
    subst heq
    simp only [startEvent, Event.dial.injEq, reduceCtorEq, exists_false, false_or,
      or_false] at hev
    exact hev.2.1
  · intro file heq
    subst heq
    simp only [startEvent, Event.remove.injEq, reduceCtorEq, exists_false, false_or,
      or_false] at hev
    exact hev
  · intro cmd heq
    subst heq
    simp only [startEvent, Event.start.injEq, reduceCtorEq, exists_false, false_or,
      or_false] at hev
    obtain ⟨fqpn, hcmd⟩ := hev
    subst hcmd
    rfl

/-- Claim C8, at the first dial of a run for Ubuntu. -/
theorem socketAddress_determined_by_os_witness :
    Event.dial "unix" "/tmp/machine-controller-userdata-ubuntu.sock" "/rpc"
      ∈ (ubuntuPlugin.startPlugin quietWorld Sys.init).2.2.since Sys.init ∧
    "/tmp/machine-controller-userdata-ubuntu.sock" = socketAddress ubuntuPlugin.os :=
  ⟨by decide,
   (socketAddress_determined_by_os.2.1 quietWorld ubuntuPlugin Sys.init
      (Event.dial "unix" "/tmp/machine-controller-userdata-ubuntu.sock" "/rpc") (by decide)).1
      _ _ _ rfl⟩

/-- Claim C9, the code at the failing input: with no socket reachable and a
child that never listens, `newPlugin` returns a handle and a nil error, the
client of that handle is nil, and `Stop` and `UserData` on it dereference the
nil client. -/
theorem newPlugin_returns_nil_client :
    (newPlugin quietWorld "ubuntu" false Sys.init).1
      = (some { os := "ubuntu", debug := false, client := none }, none) ∧
    Plugin.Stop quietWorld { os := "ubuntu", debug := false, client := none } = none ∧
    Plugin.UserData quietWorld { os := "ubuntu", debug := false, client := none }
      "spec" none "cloud" [] false = none := by
  decide

end Manager

namespace Ubuntu

/-- Claim C10, the code at the failing input: started without `-address`, the
Ubuntu plugin listens on the socket of CoreOS, which is not the address that
the manager derives for the operating system `ubuntu`. -/
theorem addressDefault_is_coreos_socket :
    address none = "/tmp/machine-controller-userdata-coreos.sock" ∧
    Manager.socketAddress "ubuntu" = "/tmp/machine-controller-userdata-ubuntu.sock" ∧
    address none = Manager.socketAddress "coreos" ∧
    address none ≠ Manager.socketAddress "ubuntu" := by
  decide

end Ubuntu
